import Mathlib

/-!
Verification of the fire/smoke detection pipeline (src/detector.py).

Strings are modelled as `List Char`.  The JSON value model (`JVal`) and the
parsing pipeline mirror Python's `json.loads` together with the repository's
`_parse_vlm_response`, the single-slot dispatch queue, the shared detection
state, the frame loop and the classification worker.
-/

namespace FireDetector

/-- left brace character, written numerically. -/
def lb : Char := Char.ofNat 123

/-- right brace character, written numerically. -/
def rb : Char := Char.ofNat 125

/-- double-quote character. -/
def qt : Char := Char.ofNat 34

/-- backslash character. -/
def bs : Char := Char.ofNat 92

/-- backtick character. -/
def bt : Char := Char.ofNat 96

/-- JSON inter-token whitespace, as in Python's json module. -/
def isJsonWs (c : Char) : Bool :=
  c = ' ' || c = '\t' || c = '\n' || c = '\r'

/-- Python `str.strip()` whitespace (ASCII subset). -/
def pyWsChar (c : Char) : Bool :=
  c = ' ' || c = '\t' || c = '\n' || c = '\r' || c = Char.ofNat 11 || c = Char.ofNat 12

def skipWs (cs : List Char) : List Char := cs.dropWhile isJsonWs

/-- JSON values as produced by `json.loads`.  Numbers keep their lexeme. -/
inductive JVal where
  | jnull : JVal
  | jbool (b : Bool) : JVal
  | jnum (lexeme : List Char) : JVal
  | jstr (s : List Char) : JVal
  | jarr (xs : List JVal) : JVal
  | jobj (fields : List (List Char × JVal)) : JVal

def hexVal (c : Char) : Option Nat :=
  if '0' ≤ c ∧ c ≤ '9' then some (c.toNat - 48)
  else if 'a' ≤ c ∧ c ≤ 'f' then some (c.toNat - 87)
  else if 'A' ≤ c ∧ c ≤ 'F' then some (c.toNat - 55)
  else none

/-- Lexer for the body of a JSON string (after the opening quote): returns the
decoded contents and the remainder after the closing quote.  Escapes follow
Python's json module; unescaped control characters are rejected (strict mode). -/
def lexStr : Nat → List Char → List Char → Option (List Char × List Char)
  | 0, _, _ => none
  | _, [], _ => none
  | fuel+1, c :: rest, acc =>
    if c = qt then some (acc.reverse, rest)
    else if c = bs then
      match rest with
      | [] => none
      | e :: rest2 =>
        if e = qt then lexStr fuel rest2 (qt :: acc)
        else if e = bs then lexStr fuel rest2 (bs :: acc)
        else if e = '/' then lexStr fuel rest2 ('/' :: acc)
        else if e = 'b' then lexStr fuel rest2 (Char.ofNat 8 :: acc)
        else if e = 'f' then lexStr fuel rest2 (Char.ofNat 12 :: acc)
        else if e = 'n' then lexStr fuel rest2 ('\n' :: acc)
        else if e = 'r' then lexStr fuel rest2 ('\r' :: acc)
        else if e = 't' then lexStr fuel rest2 ('\t' :: acc)
        else if e = 'u' then
          match rest2 with
          | a :: b :: c2 :: d :: rest3 =>
            match hexVal a, hexVal b, hexVal c2, hexVal d with
            | some x, some y, some z, some w =>
                lexStr fuel rest3 (Char.ofNat (((x * 16 + y) * 16 + z) * 16 + w) :: acc)
            | _, _, _, _ => none
          | _ => none
        else none
    else if c.toNat < 32 then none
    else lexStr fuel rest (c :: acc)

def spanDigits (cs : List Char) : List Char × List Char :=
  (cs.takeWhile Char.isDigit, cs.dropWhile Char.isDigit)

/-- Optional fractional part `.[0-9]+`; consumed only when complete. -/
def lexFrac (cs : List Char) : List Char × List Char :=
  match cs with
  | '.' :: rest =>
    let p := spanDigits rest
    if p.1.isEmpty then ([], cs) else ('.' :: p.1, p.2)
  | _ => ([], cs)

/-- Optional exponent part; consumed only when complete. -/
def lexExp (cs : List Char) : List Char × List Char :=
  match cs with
  | e :: rest =>
    if e = 'e' ∨ e = 'E' then
      match rest with
      | s :: rest2 =>
        if s = '+' ∨ s = '-' then
          let p := spanDigits rest2
          if p.1.isEmpty then ([], cs) else (e :: s :: p.1, p.2)
        else
          let p := spanDigits rest
          if p.1.isEmpty then ([], cs) else (e :: p.1, p.2)
      | [] => ([], cs)
    else ([], cs)
  | [] => ([], cs)

/-- Integer part `0|[1-9][0-9]*` (ordered alternation, as the regex). -/
def lexIntPart (cs : List Char) : Option (List Char × List Char) :=
  match cs with
  | '0' :: rest => some (['0'], rest)
  | c :: rest =>
    if c.isDigit then
      let p := spanDigits rest
      some (c :: p.1, p.2)
    else none
  | [] => none

/-- Number lexeme, exactly the json module's NUMBER_RE. -/
def lexNum (cs : List Char) : Option (List Char × List Char) :=
  let sp : List Char × List Char :=
    match cs with
    | '-' :: r => (['-'], r)
    | _ => ([], cs)
  match lexIntPart sp.2 with
  | none => none
  | some (ip, r1) =>
    let fp := lexFrac r1
    let ep := lexExp fp.2
    some (sp.1 ++ ip ++ fp.1 ++ ep.1, ep.2)

def trueLit : List Char := "true".toList
def falseLit : List Char := "false".toList
def nullLit : List Char := "null".toList
def nanLit : List Char := "NaN".toList
def infLit : List Char := "Infinity".toList
def negInfLit : List Char := "-Infinity".toList

def dropLit (lit cs : List Char) : Option (List Char) :=
  if lit.isPrefixOf cs then some (cs.drop lit.length) else none

mutual

/-- Parse one JSON value (fuel-indexed recursion). -/
def parseVal : Nat → List Char → Option (JVal × List Char)
  | 0, _ => none
  | fuel+1, cs =>
    match cs with
    | [] => none
    | c :: rest =>
      if c = qt then
        match lexStr (rest.length + 1) rest [] with
        | some (s, r) => some (.jstr s, r)
        | none => none
      else if c = lb then parseObjBody fuel (skipWs rest)
      else if c = '[' then parseArrBody fuel (skipWs rest)
      else
        match dropLit nullLit cs with
        | some r => some (.jnull, r)
        | none =>
          match dropLit trueLit cs with
          | some r => some (.jbool true, r)
          | none =>
            match dropLit falseLit cs with
            | some r => some (.jbool false, r)
            | none =>
              match lexNum cs with
              | some (lexm, r) => some (.jnum lexm, r)
              | none =>
                match dropLit nanLit cs with
                | some r => some (.jnum nanLit, r)
                | none =>
                  match dropLit infLit cs with
                  | some r => some (.jnum infLit, r)
                  | none =>
                    match dropLit negInfLit cs with
                    | some r => some (.jnum negInfLit, r)
                    | none => none

/-- Parse an object body, positioned after the opening brace and whitespace. -/
def parseObjBody : Nat → List Char → Option (JVal × List Char)
  | 0, _ => none
  | fuel+1, cs =>
    match cs with
    | [] => none
    | c :: rest =>
      if c = rb then some (.jobj [], rest)
      else if c = qt then
        match lexStr (rest.length + 1) rest [] with
        | none => none
        | some (k, r1) =>
          match skipWs r1 with
          | ':' :: r2 =>
            match parseVal fuel (skipWs r2) with
            | none => none
            | some (v, r3) => parseObjRest fuel [(k, v)] (skipWs r3)
          | _ => none
      else none

/-- Parse the continuation of an object after one member. -/
def parseObjRest : Nat → List (List Char × JVal) → List Char → Option (JVal × List Char)
  | 0, _, _ => none
  | fuel+1, acc, cs =>
    match cs with
    | [] => none
    | c :: rest =>
      if c = rb then some (.jobj acc.reverse, rest)
      else if c = ',' then
        match skipWs rest with
        | [] => none
        | q :: r1 =>
          if q = qt then
            match lexStr (r1.length + 1) r1 [] with
            | none => none
            | some (k, r2) =>
              match skipWs r2 with
              | ':' :: r3 =>
                match parseVal fuel (skipWs r3) with
                | none => none
                | some (v, r4) => parseObjRest fuel ((k, v) :: acc) (skipWs r4)
              | _ => none
          else none
      else none

/-- Parse an array body, positioned after the opening bracket and whitespace. -/
def parseArrBody : Nat → List Char → Option (JVal × List Char)
  | 0, _ => none
  | fuel+1, cs =>
    match cs with
    | ']' :: rest => some (.jarr [], rest)
    | _ =>
      match parseVal fuel cs with
      | none => none
      | some (v, r1) => parseArrRest fuel [v] (skipWs r1)

/-- Parse the continuation of an array after one element. -/
def parseArrRest : Nat → List JVal → List Char → Option (JVal × List Char)
  | 0, _, _ => none
  | fuel+1, acc, cs =>
    match cs with
    | ']' :: rest => some (.jarr acc.reverse, rest)
    | ',' :: rest =>
      match parseVal fuel (skipWs rest) with
      | none => none
      | some (v, r1) => parseArrRest fuel (v :: acc) (skipWs r1)
    | _ => none

end

/-- Model of Python `json.loads`: parse one value, then require only
whitespace to remain ("Extra data" otherwise).  `none` stands for a raised
`json.JSONDecodeError`. -/
def jsonLoads (s : List Char) : Option JVal :=
  match parseVal (s.length + 2) (skipWs s) with
  | some (v, rest) => if (skipWs rest).isEmpty then some v else none
  | none => none

-- ---------------------------------------------------------------------------
-- Python string helpers used by _parse_vlm_response
-- ---------------------------------------------------------------------------

def lstripBy (p : Char → Bool) (l : List Char) : List Char := l.dropWhile p

def rstripBy (p : Char → Bool) (l : List Char) : List Char :=
  (l.reverse.dropWhile p).reverse

def stripBy (p : Char → Bool) (l : List Char) : List Char :=
  rstripBy p (lstripBy p l)

/-- Python `str.strip()`. -/
def pyStrip (l : List Char) : List Char := stripBy pyWsChar l

def isBacktick (c : Char) : Bool := c = bt

/-- Python `str.strip("backtick")`. -/
def stripBackticks (l : List Char) : List Char := stripBy isBacktick l

/-- Python `str.lower()`. -/
def pyLower (l : List Char) : List Char := l.map Char.toLower

def json4 : List Char := ['j', 's', 'o', 'n']

/-- The preprocessing of `_parse_vlm_response` (src/detector.py lines 362-364):
strip whitespace, strip backticks, strip whitespace, and drop a leading
case-insensitive "json" prefix. -/
def preprocessRaw (raw : List Char) : List Char :=
  let r := pyStrip (stripBackticks (pyStrip raw))
  if json4.isPrefixOf (pyLower r) then pyStrip (r.drop 4) else r

/-- Exceptions the worker distinguishes: `json.JSONDecodeError` versus any
other exception class. -/
inductive PyExc where
  | jsonDecodeError : PyExc
  | otherExc : PyExc
deriving DecidableEq

/-- One attempt of the regex `.{[^{}]+}.` anchored at the current position:
an opening brace, a nonempty run of non-brace characters, a closing brace. -/
def tryMatchAt (cs : List Char) : Option (List Char) :=
  match cs with
  | [] => none
  | c :: rest =>
    if c = lb then
      let run := rest.takeWhile (fun x => x ≠ lb && x ≠ rb)
      match rest.drop run.length with
      | d :: _ => if d = rb && !run.isEmpty then some (lb :: (run ++ [rb])) else none
      | [] => none
    else none

/-- Model of `re.search` with the pattern above: leftmost successful match. -/
def jsearch : List Char → Option (List Char)
  | [] => none
  | c :: rest =>
    match tryMatchAt (c :: rest) with
    | some m => some m
    | none => jsearch rest

/-- Shallow embedding of `_parse_vlm_response` (src/detector.py lines 354-371):
preprocess, try a strict parse, fall back to the first regex-extracted brace
block, and otherwise re-raise the decode error. -/
def parse_vlm_response (raw : List Char) : Except PyExc JVal :=
  let r := preprocessRaw raw
  match jsonLoads r with
  | some v => .ok v
  | none =>
    match jsearch r with
    | some frag =>
      match jsonLoads frag with
      | some v => .ok v
      | none => .error .jsonDecodeError
    | none => .error .jsonDecodeError

-- ---------------------------------------------------------------------------
-- Shared detection state (src/detector.py lines 132-156)
-- ---------------------------------------------------------------------------

/-- Conversion of a `String` literal to the `List Char` representation. -/
def tl (s : String) : List Char := s.toList

/-- The `_state` dictionary.  Hazard-derived fields store the JSON values the
worker writes (Python keeps them untyped); counters are naturals. -/
structure DetectionState where
  alert : Bool
  type : JVal
  confidence : JVal
  description : JVal
  latency_ms : Nat
  frame_count : Nat
  alert_count : Nat
  last_alert : Option Nat
  source : List Char
  status : List Char
  log_path : List Char

def statusStarting : List Char := tl "starting"
def statusRunning : List Char := tl "running"
def statusStopped : List Char := tl "stopped"
def statusError : List Char := tl "error"
def noneStr : List Char := tl "none"
def lowStr : List Char := tl "low"
def highStr : List Char := tl "high"

/-- The initial `_state` value (src/detector.py lines 133-145); the log path is
computed from the start time at runtime, so it is a parameter. -/
def initState (logPath : List Char) : DetectionState :=
  { alert := false
    type := JVal.jstr noneStr
    confidence := JVal.jstr highStr
    description := JVal.jstr (tl "Starting up...")
    latency_ms := 0
    frame_count := 0
    alert_count := 0
    last_alert := none
    source := [Char.ofNat 0x2014]
    status := statusStarting
    log_path := logPath }

-- ---------------------------------------------------------------------------
-- Heap model for get_state's dict copy (src/detector.py lines 148-156)
-- ---------------------------------------------------------------------------

/-- A tiny heap of dict objects: addresses map to dict contents.  `stateAddr`
is the address of the module-level `_state` dict. -/
structure Mem where
  heap : Nat → DetectionState
  next : Nat

def stateAddr : Nat := 0

/-- Well-formed memory: the shared `_state` object is already allocated. -/
def memWF (m : Mem) : Prop := stateAddr < m.next

/-- Model of `get_state`: under the lock, `dict(_state)` allocates a fresh dict with
the same contents and returns a reference to it. -/
def memGetState (m : Mem) : Nat × Mem :=
  (m.next,
   { heap := fun a => if a = m.next then m.heap stateAddr else m.heap a
     next := m.next + 1 })

/-- Model of `set_state(**kwargs)`: under the lock, update the shared dict in place. -/
def memSetState (upd : DetectionState → DetectionState) (m : Mem) : Mem :=
  { m with heap := fun a => if a = stateAddr then upd (m.heap stateAddr) else m.heap a }

/-- A caller mutating whatever dict object lives at `addr`. -/
def memWrite (addr : Nat) (upd : DetectionState → DetectionState) (m : Mem) : Mem :=
  { m with heap := fun a => if a = addr then upd (m.heap a) else m.heap a }

-- ---------------------------------------------------------------------------
-- Dispatch queue (src/detector.py lines 163, 328-331, 388-389)
-- ---------------------------------------------------------------------------

/-- Frames are abstract; only identity matters. -/
abbrev Frame := Nat

/-- The capacity-one `queue.Queue`: empty or holding one frame. -/
abbrev VlmQueue := Option Frame

/-- The frame loop's offer: `put_nowait` raises `queue.Full` when the slot is
occupied and the `except queue.Full: pass` handler drops the NEW frame
(src/detector.py lines 328-331), leaving the old occupant in place. -/
def offerQ (q : VlmQueue) (f : Frame) : VlmQueue :=
  match q with
  | some g => some g
  | none => some f

/-- The worker's blocking `get`: removes and returns the occupant; `none`
means the worker is still blocked waiting. -/
def takeQ (q : VlmQueue) : Option (Frame × VlmQueue) :=
  q.map (fun f => (f, none))

-- ---------------------------------------------------------------------------
-- Classification worker (src/detector.py lines 416-455)
-- ---------------------------------------------------------------------------

def keyDetected : List Char := tl "detected"
def keyType : List Char := tl "type"
def keyConfidence : List Char := tl "confidence"
def keyDescription : List Char := tl "description"

/-- Model of `dict.get` on the parsed JSON object: Python's dict keeps the last
duplicate key, so lookup returns the value of the last matching pair. -/
def dictGet (fields : List (List Char × JVal)) (k : List Char) : Option JVal :=
  fields.foldl (fun acc kv => if kv.1 = k then some kv.2 else acc) none

/-- Python truthiness of a JSON-decoded value, as used by `bool(...)`. -/
def numIsZero (lexeme : List Char) : Bool :=
  lexeme.any Char.isDigit &&
    (lexeme.takeWhile (fun c => c ≠ 'e' && c ≠ 'E')).all (fun c => !c.isDigit || c = '0')

def pyTruthy : JVal → Bool
  | .jnull => false
  | .jbool b => b
  | .jnum lexeme => !(numIsZero lexeme)
  | .jstr s => !s.isEmpty
  | .jarr xs => !xs.isEmpty
  | .jobj fs => !fs.isEmpty

/-- The fields the worker extracts from one parsed result. -/
structure Parsed where
  detected : Bool
  dtype : JVal
  confidence : JVal
  description : JVal

/-- Field extraction and normalization (src/detector.py lines 416-423):
defaults for missing fields, then the detected-flag guard forcing the type to
"none" when `detected` is false. -/
def normalizeResult (fields : List (List Char × JVal)) : Parsed :=
  let detected := pyTruthy ((dictGet fields keyDetected).getD (JVal.jbool false))
  let dtype0 := (dictGet fields keyType).getD (JVal.jstr noneStr)
  let conf := (dictGet fields keyConfidence).getD (JVal.jstr lowStr)
  let desc := (dictGet fields keyDescription).getD (JVal.jstr [])
  { detected := detected
    dtype := if detected then dtype0 else JVal.jstr noneStr
    confidence := conf
    description := desc }

/-- The first locked section of a detected cycle (src/detector.py lines
431-433): increment `alert_count`, record `last_alert`. -/
def incrAlert (t : Nat) (s : DetectionState) : DetectionState :=
  { s with alert_count := s.alert_count + 1, last_alert := some t }

/-- The final `set_state` of a completed cycle (src/detector.py lines
440-446): one locked update of the five hazard fields. -/
def setHazard (p : Parsed) (lat : Nat) (s : DetectionState) : DetectionState :=
  { s with alert := p.detected, type := p.dtype, confidence := p.confidence,
           description := p.description, latency_ms := lat }

/-- The state effect of one successfully parsed classification cycle
(src/detector.py lines 425-446). -/
def applyResult (p : Parsed) (lat t : Nat) (s : DetectionState) : DetectionState :=
  setHazard p lat (if p.detected then incrAlert t s else s)

/-- A sequence of successfully parsed cycles, each given by the raw parsed
object's fields, latency and alert timestamp. -/
def runCycles (rs : List (List (List Char × JVal) × Nat × Nat))
    (s : DetectionState) : DetectionState :=
  rs.foldl (fun st r => applyResult (normalizeResult r.1) r.2.1 r.2.2 st) s

/-- The snapshots a concurrent `get_state` reader can obtain during a
detected cycle: the detected branch takes the state lock twice (the counter
increment, then `set_state`), so a reader sees the state before both, between
them, or after both (src/detector.py lines 431-446). -/
def detectedCycleSnapshots (p : Parsed) (t lat : Nat) (s : DetectionState) :
    List DetectionState :=
  [s, incrAlert t s, setHazard p lat (incrAlert t s)]

/-- Snapshots during a non-detected cycle: only the single locked
`set_state`, so before or after. -/
def clearCycleSnapshots (p : Parsed) (lat : Nat) (s : DetectionState) :
    List DetectionState :=
  [s, setHazard p lat s]

/-- Outcomes of one worker cycle (src/detector.py lines 407-455). -/
inductive CycleOutcome where
  | success (fields : List (List Char × JVal)) (lat : Nat) (t : Nat)
  | parseFailure
  | timeoutErr
  | transportErr (msg : List Char)

def timeoutDesc : List Char := tl "Ollama timeout -- retrying..."

def vlmErrDesc (msg : List Char) : List Char := tl "VLM error: " ++ msg.take 80

/-- The state effect of one worker cycle, by outcome: success runs the full
update; a `json.JSONDecodeError` is only logged (lines 448-449); a timeout or
transport error writes a diagnostic description (lines 450-455). -/
def cycleApply : CycleOutcome → DetectionState → DetectionState
  | .success fields lat t, s => applyResult (normalizeResult fields) lat t s
  | .parseFailure, s => s
  | .timeoutErr, s => { s with description := JVal.jstr timeoutDesc }
  | .transportErr m, s => { s with description := JVal.jstr (vlmErrDesc m) }

/-- Whether the cycle's handler performs a `set_state` call that includes the
`description` key (success: line 444; timeout: line 452; transport error:
line 455; parse failure: none). -/
def cycleWritesDescription : CycleOutcome → Bool
  | .parseFailure => false
  | _ => true

-- ---------------------------------------------------------------------------
-- Frame loop (src/detector.py lines 279-339)
-- ---------------------------------------------------------------------------

/-- A video source: a live device (integer camera index) producing a stream
that may stop, or a finite seekable file. -/
inductive VSource where
  | cam (frames : List Frame)
  | file (frames : List Frame)

def srcFrames : VSource → List Frame
  | .cam fs => fs
  | .file fs => fs

/-- Model of `isinstance(source, str)`: true exactly for file paths. -/
def srcIsFile : VSource → Bool
  | .cam _ => false
  | .file _ => true

/-- Model of `cap.read()` at the current position: `none` models `ret == False`. -/
def capRead (src : VSource) (pos : Nat) : Option Frame :=
  (srcFrames src).get? pos

def FRAME_SKIP : Nat := 1

/-- The frame loop's local state: capture position, the local `frame_idx`,
whether the loop has exited, the frames produced so far (a history
variable), and the dispatch queue contents. -/
structure FLoopSt where
  pos : Nat
  frame_idx : Nat
  done : Bool
  trace : List Frame
  q : VlmQueue

def flInit : FLoopSt :=
  { pos := 0, frame_idx := 0, done := false, trace := [], q := none }

/-- One iteration of the `while True` loop (src/detector.py lines 300-339):
on read failure a file source rewinds and continues, a live source breaks out
(releasing the capture and setting status "stopped"); on success the frame
counter is incremented and published, and the downscaled frame is offered to
the queue every `FRAME_SKIP`-th iteration. -/
def fstep (src : VSource) (x : FLoopSt × DetectionState) : FLoopSt × DetectionState :=
  let fl := x.1
  let st := x.2
  if fl.done then (fl, st)
  else
    match capRead src fl.pos with
    | none =>
      if srcIsFile src then ({ fl with pos := 0 }, st)
      else ({ fl with done := true }, { st with status := statusStopped })
    | some f =>
      let idx := fl.frame_idx + 1
      ({ fl with
          pos := fl.pos + 1
          frame_idx := idx
          trace := fl.trace ++ [f]
          q := if idx % FRAME_SKIP = 0 then offerQ fl.q f else fl.q },
       { st with frame_count := idx })

/-- The loop's startup writes (src/detector.py lines 293-294). -/
def startWrites (srcLabel : List Char) (s : DetectionState) : DetectionState :=
  { s with source := srcLabel, status := statusRunning,
           description := JVal.jstr (tl "Waiting for first analysis...") }

/-- The open-failure path (src/detector.py lines 283-286): the only place the
status becomes "error". -/
def openFailWrites (s : DetectionState) : DetectionState :=
  { s with status := statusError,
           description := JVal.jstr (tl "Cannot open camera / video file.") }

/-- Iterating `n` times the frame loop body. -/
def stepN (src : VSource) : Nat → FLoopSt × DetectionState → FLoopSt × DetectionState
  | 0, x => x
  | n+1, x => stepN src n (fstep src x)

/-- Iterated frame loop on a file source, from the loop's starting state. -/
def frun (frames : List Frame) (n : Nat) : FLoopSt × DetectionState :=
  stepN (.file frames) n (flInit, startWrites [] (initState []))

/-- The k-th frame (0-indexed) the file-source loop ever produces: read off
the trace after enough iterations to be sure it exists. -/
def nthProduced (frames : List Frame) (k : Nat) : Frame :=
  ((frun frames ((k + 1) * (frames.length + 1))).1.trace).getD k 0

-- ---------------------------------------------------------------------------
-- Combined system for the counter invariants (claim C8)
-- ---------------------------------------------------------------------------

/-- Combined state of the two threads and the shared dict. -/
structure Sys where
  fl : FLoopSt
  st : DetectionState

def sysInit : Sys := { fl := flInit, st := initState [] }

/-- Labels of the atomic locked actions of the two threads. -/
inductive SysLabel where
  | flStart (srcLabel : List Char)
  | flOpenFail
  | flIter
  | wIncr (p : Parsed) (t : Nat)
  | wSetHazard (p : Parsed) (lat : Nat)
  | wSetDesc (d : List Char)

/-- Atomic steps of the system: the frame loop's startup/open-failure writes
and loop iterations, and the worker's locked updates.  The `alert_count`
increment only exists in the detected branch (src/detector.py lines
425-433), hence its `p.detected = true` premise. -/
inductive SysStep (src : VSource) : SysLabel → Sys → Sys → Prop
  | flStart (lbl : List Char) (s : Sys) :
      SysStep src (.flStart lbl) s { s with st := startWrites lbl s.st }
  | flOpenFail (s : Sys) :
      SysStep src .flOpenFail s { s with st := openFailWrites s.st }
  | flIter (s : Sys) :
      SysStep src .flIter s
        { fl := (fstep src (s.fl, s.st)).1, st := (fstep src (s.fl, s.st)).2 }
  | wIncr (p : Parsed) (t : Nat) (s : Sys) (hp : p.detected = true) :
      SysStep src (.wIncr p t) s { s with st := incrAlert t s.st }
  | wSetHazard (p : Parsed) (lat : Nat) (s : Sys) :
      SysStep src (.wSetHazard p lat) s { s with st := setHazard p lat s.st }
  | wSetDesc (d : List Char) (s : Sys) :
      SysStep src (.wSetDesc d) s { s with st := { s.st with description := JVal.jstr d } }

/-- Reachability from the initial program state by any sequence of steps. -/
def SysReach (src : VSource) (s : Sys) : Prop :=
  Relation.ReflTransGen (fun a b => ∃ l, SysStep src l a b) sysInit s

-- ---------------------------------------------------------------------------
-- Auxiliary values and notions used by the theorems below
-- ---------------------------------------------------------------------------

/-- Markdown fencing around a response: three backticks, "json", a newline,
the payload, a newline, three closing backticks. -/
def fence (s : List Char) : List Char :=
  [bt, bt, bt] ++ json4 ++ ['\n'] ++ s ++ ['\n'] ++ [bt, bt, bt]

/-- Concatenation of `m` copies of a list. -/
def repList (l : List Frame) : Nat → List Frame
  | 0 => []
  | m+1 => l ++ repList l m

/-- A concrete well-formed memory for the heap model. -/
def exMem : Mem := { heap := fun _ => initState [], next := 1 }

/-- A concrete state left by a previous non-alert classification update. -/
def exPrev : DetectionState :=
  { initState [] with
      alert := false
      type := JVal.jstr noneStr
      confidence := JVal.jstr highStr
      description := JVal.jstr (tl "All clear, no hazard visible.")
      latency_ms := 900
      status := statusRunning }

/-- The raw fields of a concrete detected classification result. -/
def exFields : List (List Char × JVal) :=
  [(keyDetected, JVal.jbool true),
   (keyType, JVal.jstr (tl "fire")),
   (keyConfidence, JVal.jstr highStr),
   (keyDescription, JVal.jstr (tl "Open flames on the left side."))]

def exParsed : Parsed := normalizeResult exFields

-- ===========================================================================
-- Theorems
-- ===========================================================================

-- ---------------------------------------------------------------------------
-- C1: dispatch queue behaviour under repeated offers
-- ---------------------------------------------------------------------------

lemma foldl_offerQ_some (g : Frame) (fs : List Frame) :
    fs.foldl offerQ (some g) = some g := by
  induction fs with
  | nil => rfl
  | cons a as ih => simpa [offerQ] using ih

/-- C1: after a sequence of offers with no intervening take, `take()` removes
and returns the FIRST offered frame, not the last: `put_nowait` raises
`queue.Full` on the occupied slot and the handler drops the new frame, so all
offers after the first are unobservable.  This contradicts the claim (and the
comment at src/detector.py line 162) that a newer arrival replaces the older
one. -/
theorem C1_take_returns_first_offer (f : Frame) (fs : List Frame) :
    takeQ (fs.foldl offerQ (offerQ (none : VlmQueue) f)) = some (f, none) := by
  have h : offerQ (none : VlmQueue) f = some f := rfl
  rw [h, foldl_offerQ_some]
  rfl

-- ---------------------------------------------------------------------------
-- C2: snapshot atomicity during a worker update
-- ---------------------------------------------------------------------------

/-- C2 (counterexample): the claim that a reader never observes the new
`alert_count` paired with the previous result's hazard fields is false.  The
detected branch takes the lock twice; the intermediate state
`incrAlert t exPrev` is a reader-observable snapshot that carries the
incremented `alert_count` together with the previous cycle's `alert = false`
and its old description, both of which differ from the new result's values. -/
theorem C2_counterexample :
    incrAlert 1 exPrev ∈ detectedCycleSnapshots exParsed 1 500 exPrev ∧
    (incrAlert 1 exPrev).alert_count = exPrev.alert_count + 1 ∧
    (incrAlert 1 exPrev).last_alert = some 1 ∧
    exParsed.detected = true ∧
    (incrAlert 1 exPrev).alert = false ∧
    (incrAlert 1 exPrev).description = exPrev.description ∧
    (incrAlert 1 exPrev).description ≠ exParsed.description ∧
    (setHazard exParsed 500 (incrAlert 1 exPrev)).alert = true := by
  refine ⟨?_, rfl, rfl, rfl, rfl, rfl, ?_, rfl⟩
  · simp [detectedCycleSnapshots]
  · intro h
    have h' : JVal.jstr (tl "All clear, no hazard visible.") =
        JVal.jstr (tl "Open flames on the left side.") := h
    injection h' with h2
    exact absurd h2 (by decide)

/-- C2 (amended): every reader snapshot during a cycle is untorn with respect
to each single locked update.  In a non-detected cycle the whole update is one
locked `set_state`, so a reader sees exactly the old or the new state.  In a
detected cycle the reader may additionally see the one intermediate state in
which `alert_count` and `last_alert` are new while all five hazard fields are
still those of the previous result. -/
theorem C2_snapshot_atomicity_amended :
    (∀ (p : Parsed) (t lat : Nat) (s snap : DetectionState),
       snap ∈ detectedCycleSnapshots p t lat s →
         snap = s ∨ snap = setHazard p lat (incrAlert t s) ∨
           (snap.alert = s.alert ∧ snap.type = s.type ∧
            snap.confidence = s.confidence ∧ snap.description = s.description ∧
            snap.latency_ms = s.latency_ms ∧ snap.frame_count = s.frame_count ∧
            snap.alert_count = s.alert_count + 1 ∧ snap.last_alert = some t)) ∧
    (∀ (p : Parsed) (lat : Nat) (s snap : DetectionState),
       snap ∈ clearCycleSnapshots p lat s → snap = s ∨ snap = setHazard p lat s) := by
  constructor
  · intro p t lat s snap hmem
    simp only [detectedCycleSnapshots, List.mem_cons, List.mem_singleton,
      List.not_mem_nil, or_false] at hmem
    rcases hmem with h | h | h
    · exact Or.inl h
    · subst h
      exact Or.inr (Or.inr ⟨rfl, rfl, rfl, rfl, rfl, rfl, rfl, rfl⟩)
    · exact Or.inr (Or.inl h)
  · intro p lat s snap hmem
    simp only [clearCycleSnapshots, List.mem_cons, List.mem_singleton,
      List.not_mem_nil, or_false] at hmem
    exact hmem

/-- C2 witness: the amended theorem applied to the concrete previous state and
the intermediate snapshot. -/
theorem C2_witness :
    incrAlert 1 exPrev = exPrev ∨
    incrAlert 1 exPrev = setHazard exParsed 500 (incrAlert 1 exPrev) ∨
      ((incrAlert 1 exPrev).alert = exPrev.alert ∧
       (incrAlert 1 exPrev).type = exPrev.type ∧
       (incrAlert 1 exPrev).confidence = exPrev.confidence ∧
       (incrAlert 1 exPrev).description = exPrev.description ∧
       (incrAlert 1 exPrev).latency_ms = exPrev.latency_ms ∧
       (incrAlert 1 exPrev).frame_count = exPrev.frame_count ∧
       (incrAlert 1 exPrev).alert_count = exPrev.alert_count + 1 ∧
       (incrAlert 1 exPrev).last_alert = some 1) :=
  C2_snapshot_atomicity_amended.1 exParsed 1 500 exPrev (incrAlert 1 exPrev)
    (by simp [detectedCycleSnapshots])

-- ---------------------------------------------------------------------------
-- C3: which outcomes update the description
-- ---------------------------------------------------------------------------

/-- C3 (counterexample): a parse-failure cycle performs no state update at
all, so in particular the description is not updated — the
`json.JSONDecodeError` handler only logs (src/detector.py lines 448-449). -/
theorem C3_counterexample :
    cycleWritesDescription CycleOutcome.parseFailure = false ∧
    cycleApply CycleOutcome.parseFailure exPrev = exPrev ∧
    (cycleApply CycleOutcome.parseFailure exPrev).description = exPrev.description :=
  ⟨rfl, rfl, rfl⟩

/-- C3 (amended): every cycle outcome except a parse failure performs a
`set_state` that includes the description; a parse failure is logged only and
leaves the shared state entirely unchanged before the worker loops back to
`take()` (the cycle is total — no outcome crashes the worker). -/
theorem C3_description_updates_amended :
    (∀ o, o ≠ CycleOutcome.parseFailure → cycleWritesDescription o = true) ∧
    (∀ s, cycleApply CycleOutcome.parseFailure s = s) := by
  constructor
  · intro o ho
    cases o with
    | success fields lat t => rfl
    | parseFailure => exact absurd rfl ho
    | timeoutErr => rfl
    | transportErr m => rfl
  · intro s
    rfl

/-- C3 witness: the amended theorem at the timeout outcome and a concrete
state. -/
theorem C3_witness :
    cycleWritesDescription CycleOutcome.timeoutErr = true ∧
    cycleApply CycleOutcome.parseFailure (initState []) = initState [] :=
  ⟨C3_description_updates_amended.1 CycleOutcome.timeoutErr (fun h => nomatch h),
   C3_description_updates_amended.2 (initState [])⟩

-- ---------------------------------------------------------------------------
-- C4: alert counting and type normalization
-- ---------------------------------------------------------------------------

lemma applyResult_alert_count (p : Parsed) (lat t : Nat) (s : DetectionState) :
    (applyResult p lat t s).alert_count =
      s.alert_count + (if p.detected then 1 else 0) := by
  by_cases hp : p.detected <;> simp [applyResult, setHazard, incrAlert, hp]

/-- C4: after M completed classification cycles `alert_count` has increased by
exactly the number of cycles whose normalized detected flag is true; and a
result with normalized `detected = false` stores `type = "none"` and leaves
`alert_count` unchanged, whatever hazard type the raw response carried. -/
theorem C4_alert_counting :
    (∀ (rs : List (List (List Char × JVal) × Nat × Nat)) (s : DetectionState),
       (runCycles rs s).alert_count =
         s.alert_count + rs.countP (fun r => (normalizeResult r.1).detected)) ∧
    (∀ (fields : List (List Char × JVal)) (lat t : Nat) (s : DetectionState),
       (normalizeResult fields).detected = false →
         (normalizeResult fields).dtype = JVal.jstr noneStr ∧
         (applyResult (normalizeResult fields) lat t s).alert_count = s.alert_count ∧
         (applyResult (normalizeResult fields) lat t s).type = JVal.jstr noneStr) := by
  constructor
  · intro rs
    induction rs with
    | nil => intro s; simp [runCycles]
    | cons r rs ih =>
      intro s
      have h1 : runCycles (r :: rs) s =
          runCycles rs (applyResult (normalizeResult r.1) r.2.1 r.2.2 s) := rfl
      rw [h1, ih, applyResult_alert_count, List.countP_cons]
      by_cases hd : (normalizeResult r.1).detected
      · simp [hd]
        omega
      · simp [hd]
  · intro fields lat t s h
    refine ⟨?_, ?_, ?_⟩
    · simp only [normalizeResult] at h ⊢
      rw [h]
      simp
    · rw [applyResult_alert_count, h]
      simp
    · have hd : (applyResult (normalizeResult fields) lat t s).type =
          (normalizeResult fields).dtype := rfl
      rw [hd]
      simp only [normalizeResult] at h ⊢
      rw [h]
      simp

/-- C4 witness: the second part applied to a raw result that claims
`detected = false` but carries hazard type "fire"; the stored type is still
"none" and the counter is unchanged. -/
theorem C4_witness :
    (normalizeResult [(keyDetected, JVal.jbool false), (keyType, JVal.jstr (tl "fire"))]).detected = false ∧
    (normalizeResult [(keyDetected, JVal.jbool false), (keyType, JVal.jstr (tl "fire"))]).dtype = JVal.jstr noneStr ∧
    (applyResult (normalizeResult [(keyDetected, JVal.jbool false), (keyType, JVal.jstr (tl "fire"))]) 5 7 (initState [])).alert_count
      = (initState []).alert_count :=
  ⟨rfl,
   (C4_alert_counting.2 [(keyDetected, JVal.jbool false), (keyType, JVal.jstr (tl "fire"))] 5 7 (initState []) rfl).1,
   (C4_alert_counting.2 [(keyDetected, JVal.jbool false), (keyType, JVal.jstr (tl "fire"))] 5 7 (initState []) rfl).2.1⟩

-- ---------------------------------------------------------------------------
-- C9: get_state returns a fresh shallow copy
-- ---------------------------------------------------------------------------

/-- C9: `get_state` returns a reference to a freshly allocated dict whose
contents equal the shared `_state`; mutating the snapshot leaves the shared
dict unchanged, and the shared dict still changes only through `set_state`
(or the worker's equivalent locked update). -/
theorem C9_get_state_copy (m : Mem) (h : memWF m) :
    (memGetState m).1 ≠ stateAddr ∧
    ((memGetState m).2).heap (memGetState m).1 = m.heap stateAddr ∧
    (∀ upd, (memWrite (memGetState m).1 upd (memGetState m).2).heap stateAddr
        = m.heap stateAddr) ∧
    (∀ upd, (memSetState upd (memGetState m).2).heap stateAddr
        = upd (m.heap stateAddr)) := by
  have hne : stateAddr ≠ m.next := Nat.ne_of_lt h
  refine ⟨fun hc => hne hc.symm, ?_, fun upd => ?_, fun upd => ?_⟩ <;>
    simp [memGetState, memWrite, memSetState, hne]

/-- C9 witness: the theorem at a concrete one-object memory, with a concrete
mutation of the snapshot. -/
theorem C9_witness :
    memWF exMem ∧
    (memGetState exMem).1 ≠ stateAddr ∧
    (memWrite (memGetState exMem).1 (fun s => { s with alert := true })
        (memGetState exMem).2).heap stateAddr = exMem.heap stateAddr :=
  ⟨Nat.zero_lt_one,
   (C9_get_state_copy exMem Nat.zero_lt_one).1,
   (C9_get_state_copy exMem Nat.zero_lt_one).2.2.1 (fun s => { s with alert := true })⟩

-- ---------------------------------------------------------------------------
-- C10: defaults for missing fields
-- ---------------------------------------------------------------------------

/-- C10: missing fields get defaults before storing: a missing `detected` is
treated as false (so the type is normalized to "none" and the counter is not
incremented), a missing `confidence` defaults to "low", a missing
`description` defaults to the empty string; the bare response object with no
fields parses successfully and yields a non-alert update. -/
theorem C10_missing_field_defaults :
    (∀ (fields : List (List Char × JVal)) (lat t : Nat) (s : DetectionState),
       dictGet fields keyDetected = none →
         (normalizeResult fields).detected = false ∧
         (normalizeResult fields).dtype = JVal.jstr noneStr ∧
         (applyResult (normalizeResult fields) lat t s).alert_count = s.alert_count ∧
         (applyResult (normalizeResult fields) lat t s).alert = false) ∧
    (∀ fields, dictGet fields keyConfidence = none →
       (normalizeResult fields).confidence = JVal.jstr lowStr) ∧
    (∀ fields, dictGet fields keyDescription = none →
       (normalizeResult fields).description = JVal.jstr []) ∧
    (jsonLoads [lb, rb] = some (JVal.jobj []) ∧
     (normalizeResult []).detected = false ∧
     (normalizeResult []).dtype = JVal.jstr noneStr ∧
     (normalizeResult []).confidence = JVal.jstr lowStr ∧
     (normalizeResult []).description = JVal.jstr []) := by
  refine ⟨?_, ?_, ?_, rfl, rfl, rfl, rfl, rfl⟩
  · intro fields lat t s h
    have hdet : (normalizeResult fields).detected = false := by
      simp only [normalizeResult, h, Option.getD]
      rfl
    refine ⟨hdet, ?_, ?_, ?_⟩
    · simp only [normalizeResult] at hdet ⊢
      rw [hdet]
      simp
    · rw [applyResult_alert_count, hdet]
      simp
    · have : (applyResult (normalizeResult fields) lat t s).alert =
          (normalizeResult fields).detected := rfl
      rw [this, hdet]
  · intro fields h
    simp only [normalizeResult, h, Option.getD]
  · intro fields h
    simp only [normalizeResult, h, Option.getD]

/-- C10 witness: a response carrying only a hazard type still yields a
non-alert, type-"none", confidence-"low", empty-description update. -/
theorem C10_witness :
    dictGet [(keyType, JVal.jstr (tl "smoke"))] keyDetected = none ∧
    (normalizeResult [(keyType, JVal.jstr (tl "smoke"))]).detected = false ∧
    (normalizeResult [(keyType, JVal.jstr (tl "smoke"))]).dtype = JVal.jstr noneStr ∧
    (normalizeResult [(keyType, JVal.jstr (tl "smoke"))]).confidence = JVal.jstr lowStr :=
  ⟨rfl,
   (C10_missing_field_defaults.1 [(keyType, JVal.jstr (tl "smoke"))] 1 2 (initState []) rfl).1,
   (C10_missing_field_defaults.1 [(keyType, JVal.jstr (tl "smoke"))] 1 2 (initState []) rfl).2.1,
   C10_missing_field_defaults.2.1 [(keyType, JVal.jstr (tl "smoke"))] rfl⟩

-- ---------------------------------------------------------------------------
-- C6: live-device read failure
-- ---------------------------------------------------------------------------

/-- C6 (counterexample): a live camera whose very first pull fails makes the
loop terminate, but the status written is "stopped", not "error" — status
"error" is never written on a mid-stream pull failure. -/
theorem C6_counterexample :
    (fstep (.cam []) (flInit, startWrites (tl "Webcam") (initState []))).1.done = true ∧
    (fstep (.cam []) (flInit, startWrites (tl "Webcam") (initState []))).2.status = statusStopped ∧
    (fstep (.cam []) (flInit, startWrites (tl "Webcam") (initState []))).2.status ≠ statusError := by
  refine ⟨rfl, rfl, ?_⟩
  intro h
  have h' : statusStopped = statusError := h
  exact absurd h' (by decide)

/-- C6 (amended): whenever a frame pull from a live device fails, the frame
loop terminates and sets the status to "stopped"; the status "error" is
written only by the open-failure path before the loop starts. -/
theorem C6_live_failure_stops (frames : List Frame) (fl : FLoopSt) (st : DetectionState)
    (hdone : fl.done = false) (hfail : capRead (.cam frames) fl.pos = none) :
    (fstep (.cam frames) (fl, st)).1.done = true ∧
    (fstep (.cam frames) (fl, st)).2.status = statusStopped ∧
    statusStopped ≠ statusError ∧
    (openFailWrites st).status = statusError := by
  refine ⟨?_, ?_, by decide, rfl⟩ <;>
    simp [fstep, hdone, hfail, srcIsFile]

/-- C6 witness: the amended theorem at a camera that produced one frame and
then stopped, with the loop positioned past that frame. -/
theorem C6_witness :
    ({ pos := 1, frame_idx := 1, done := false, trace := [42], q := some 42 } : FLoopSt).done = false ∧
    capRead (.cam [42]) 1 = none ∧
    (fstep (.cam [42]) ({ pos := 1, frame_idx := 1, done := false, trace := [42], q := some 42 }, initState [])).1.done = true ∧
    (fstep (.cam [42]) ({ pos := 1, frame_idx := 1, done := false, trace := [42], q := some 42 }, initState [])).2.status = statusStopped :=
  ⟨rfl, rfl,
   (C6_live_failure_stops [42] { pos := 1, frame_idx := 1, done := false, trace := [42], q := some 42 } (initState []) rfl rfl).1,
   (C6_live_failure_stops [42] { pos := 1, frame_idx := 1, done := false, trace := [42], q := some 42 } (initState []) rfl rfl).2.1⟩

-- ---------------------------------------------------------------------------
-- C8: counter monotonicity over every system step
-- ---------------------------------------------------------------------------

lemma fstep_frame_count_inv (src : VSource) (x : FLoopSt × DetectionState)
    (h : x.2.frame_count = x.1.frame_idx) :
    (fstep src x).2.frame_count = (fstep src x).1.frame_idx := by
  obtain ⟨fl, st⟩ := x
  by_cases hd : fl.done
  · simpa [fstep, hd] using h
  · cases hr : capRead src fl.pos with
    | none =>
      by_cases hf : srcIsFile src
      · simpa [fstep, hd, hr, hf] using h
      · simpa [fstep, hd, hr, hf] using h
    | some f => simp [fstep, hd, hr]

lemma fstep_frame_count_mono (src : VSource) (x : FLoopSt × DetectionState)
    (h : x.2.frame_count = x.1.frame_idx) :
    x.2.frame_count ≤ (fstep src x).2.frame_count := by
  obtain ⟨fl, st⟩ := x
  by_cases hd : fl.done
  · simp [fstep, hd]
  · cases hr : capRead src fl.pos with
    | none =>
      by_cases hf : srcIsFile src
      · simp [fstep, hd, hr, hf]
      · simp [fstep, hd, hr, hf]
    | some f =>
      simp only [fstep, hd, hr]
      simp only at h
      simp [h, Nat.le_succ]

lemma fstep_alert_count (src : VSource) (x : FLoopSt × DetectionState) :
    (fstep src x).2.alert_count = x.2.alert_count := by
  obtain ⟨fl, st⟩ := x
  by_cases hd : fl.done
  · simp [fstep, hd]
  · cases hr : capRead src fl.pos with
    | none =>
      by_cases hf : srcIsFile src
      · simp [fstep, hd, hr, hf]
      · simp [fstep, hd, hr, hf]
    | some f => simp [fstep, hd, hr]

lemma sysStep_frame_idx_inv (src : VSource) {l : SysLabel} {s s' : Sys}
    (hstep : SysStep src l s s') (h : s.st.frame_count = s.fl.frame_idx) :
    s'.st.frame_count = s'.fl.frame_idx := by
  cases hstep with
  | flStart lbl s => exact h
  | flOpenFail s => exact h
  | flIter s => exact fstep_frame_count_inv src (s.fl, s.st) h
  | wIncr p t s hp => exact h
  | wSetHazard p lat s => exact h
  | wSetDesc d s => exact h

lemma sysReach_frame_idx_inv (src : VSource) (s : Sys) (h : SysReach src s) :
    s.st.frame_count = s.fl.frame_idx := by
  induction h with
  | refl => rfl
  | tail hab hbc ih =>
    obtain ⟨l, hstep⟩ := hbc
    exact sysStep_frame_idx_inv src hstep ih

/-- C8: under every atomic step of the frame loop and the classification
worker, starting from the initial program state, `frame_count` and
`alert_count` never decrease (file-source rewinds included, since a rewind
leaves the local frame index untouched), and any step that changes
`alert_count` is the worker's increment for a result whose normalized
detected flag is true — never a non-hazard result. -/
theorem C8_counters_monotone (src : VSource) (l : SysLabel) (s s' : Sys)
    (hreach : SysReach src s) (hstep : SysStep src l s s') :
    s.st.frame_count ≤ s'.st.frame_count ∧
    s.st.alert_count ≤ s'.st.alert_count ∧
    (s'.st.alert_count ≠ s.st.alert_count →
      ∃ p t, l = SysLabel.wIncr p t ∧ p.detected = true) := by
  have hinv := sysReach_frame_idx_inv src s hreach
  cases hstep with
  | flStart lbl s => exact ⟨le_refl _, le_refl _, fun hc => absurd rfl hc⟩
  | flOpenFail s => exact ⟨le_refl _, le_refl _, fun hc => absurd rfl hc⟩
  | flIter s =>
    refine ⟨fstep_frame_count_mono src (s.fl, s.st) hinv, ?_, ?_⟩
    · exact le_of_eq (fstep_alert_count src (s.fl, s.st)).symm
    · intro hc
      exact absurd (fstep_alert_count src (s.fl, s.st)) hc
  | wIncr p t s hp =>
    exact ⟨le_refl _, Nat.le_succ _, fun _ => ⟨p, t, rfl, hp⟩⟩
  | wSetHazard p lat s => exact ⟨le_refl _, le_refl _, fun hc => absurd rfl hc⟩
  | wSetDesc d s => exact ⟨le_refl _, le_refl _, fun hc => absurd rfl hc⟩

/-- C8 witness: the theorem at the initial state and a worker description
write (a transport-error cycle's only state update). -/
theorem C8_witness :
    sysInit.st.frame_count ≤
      ({ sysInit with st := { sysInit.st with description := JVal.jstr (tl "VLM error: x") } } : Sys).st.frame_count ∧
    sysInit.st.alert_count ≤
      ({ sysInit with st := { sysInit.st with description := JVal.jstr (tl "VLM error: x") } } : Sys).st.alert_count :=
  ⟨(C8_counters_monotone (.cam []) (.wSetDesc (tl "VLM error: x")) sysInit _
      Relation.ReflTransGen.refl (SysStep.wSetDesc (tl "VLM error: x") sysInit)).1,
   (C8_counters_monotone (.cam []) (.wSetDesc (tl "VLM error: x")) sysInit _
      Relation.ReflTransGen.refl (SysStep.wSetDesc (tl "VLM error: x") sysInit)).2.1⟩

-- ---------------------------------------------------------------------------
-- C7: finite-source looping
-- ---------------------------------------------------------------------------

lemma stepN_add (src : VSource) (a b : Nat) (x : FLoopSt × DetectionState) :
    stepN src (a + b) x = stepN src b (stepN src a x) := by
  induction a generalizing x with
  | zero => simp [stepN]
  | succ a ih =>
    have h : a + 1 + b = (a + b) + 1 := by omega
    rw [h]
    exact ih (fstep src x)

lemma stepN_succ_right (src : VSource) (n : Nat) (x : FLoopSt × DetectionState) :
    stepN src (n + 1) x = fstep src (stepN src n x) := by
  rw [stepN_add src n 1 x]
  rfl

lemma stepN_one (src : VSource) (x : FLoopSt × DetectionState) :
    stepN src 1 x = fstep src x := rfl

lemma fstep_read (src : VSource) (pos fidx : Nat) (tr : List Frame) (q0 : VlmQueue)
    (st : DetectionState) (f : Frame) (hget : capRead src pos = some f) :
    fstep src ({ pos := pos, frame_idx := fidx, done := false, trace := tr, q := q0 }, st) =
      ({ pos := pos + 1, frame_idx := fidx + 1, done := false, trace := tr ++ [f],
         q := offerQ q0 f },
       { st with frame_count := fidx + 1 }) := by
  simp [fstep, hget, FRAME_SKIP, Nat.mod_one]

lemma fstep_rewind (frames : List Frame) (pos fidx : Nat) (tr : List Frame)
    (q0 : VlmQueue) (st : DetectionState)
    (hget : capRead (.file frames) pos = none) :
    fstep (.file frames)
        ({ pos := pos, frame_idx := fidx, done := false, trace := tr, q := q0 }, st) =
      ({ pos := 0, frame_idx := fidx, done := false, trace := tr, q := q0 }, st) := by
  simp [fstep, hget, srcIsFile]

set_option maxRecDepth 4000 in
lemma file_read_phase (frames : List Frame) (fidx : Nat) (tr : List Frame)
    (q0 : VlmQueue) (st : DetectionState) :
    ∀ j, j ≤ frames.length →
      stepN (.file frames) j
          ({ pos := 0, frame_idx := fidx, done := false, trace := tr, q := q0 }, st) =
        ({ pos := j, frame_idx := fidx + j, done := false,
           trace := tr ++ frames.take j,
           q := (frames.take j).foldl offerQ q0 },
         if j = 0 then st else { st with frame_count := fidx + j }) := by
  intro j
  induction j with
  | zero =>
    intro _
    simp [stepN]
  | succ j ih =>
    intro hj
    have hj' : j ≤ frames.length := Nat.le_of_succ_le hj
    have hjlt : j < frames.length := Nat.lt_of_succ_le hj
    have hget : capRead (.file frames) j = some (frames.get ⟨j, hjlt⟩) := by
      simp [capRead, srcFrames, List.get?_eq_get hjlt]
    have htake : frames.take (j + 1) = frames.take j ++ [frames.get ⟨j, hjlt⟩] := by
      rw [List.take_succ]
      congr 1
      rw [List.getElem?_eq_getElem hjlt]
      rfl
    have harith : fidx + j + 1 = fidx + (j + 1) := by omega
    rw [stepN_succ_right, ih hj']
    by_cases hj0 : j = 0
    · subst hj0
      rw [if_pos rfl, fstep_read _ _ _ _ _ _ _ hget]
      simp [htake, List.foldl_append]
    · rw [if_neg hj0, fstep_read _ _ _ _ _ _ _ hget, if_neg (Nat.succ_ne_zero j)]
      have e1 : fidx + j + 1 = fidx + (j + 1) := by omega
      have e2 : (tr ++ List.take j frames) ++ [frames.get ⟨j, hjlt⟩] =
          tr ++ List.take (j + 1) frames := by
        rw [htake, List.append_assoc]
      have e3 : offerQ (List.foldl offerQ q0 (List.take j frames)) (frames.get ⟨j, hjlt⟩) =
          List.foldl offerQ q0 (List.take (j + 1) frames) := by
        rw [htake, List.foldl_append]
        rfl
      rw [e1, e2, e3]

lemma file_cycle (frames : List Frame) (hF : frames ≠ []) (fidx : Nat)
    (tr : List Frame) (q0 : VlmQueue) (st : DetectionState) :
    stepN (.file frames) (frames.length + 1)
        ({ pos := 0, frame_idx := fidx, done := false, trace := tr, q := q0 }, st) =
      ({ pos := 0, frame_idx := fidx + frames.length, done := false,
         trace := tr ++ frames, q := frames.foldl offerQ q0 },
       { st with frame_count := fidx + frames.length }) := by
  have hF0 : frames.length ≠ 0 := fun hc => hF (List.length_eq_zero.mp hc)
  have hget : capRead (.file frames) frames.length = none := by
    simp [capRead, srcFrames, List.get?_eq_none]
  rw [stepN_add (.file frames) frames.length 1,
    file_read_phase frames fidx tr q0 st frames.length (le_refl _),
    if_neg hF0, stepN_one, fstep_rewind frames _ _ _ _ _ hget]
  simp

lemma repList_succ_back (l : List Frame) (m : Nat) :
    repList l m ++ l = repList l (m + 1) := by
  induction m with
  | zero => simp [repList]
  | succ m ih =>
    show (l ++ repList l m) ++ l = l ++ repList l (m + 1)
    rw [List.append_assoc, ih]

lemma file_cycles_trace (frames : List Frame) (hF : frames ≠ []) :
    ∀ m (fidx : Nat) (tr : List Frame) (q0 : VlmQueue) (st : DetectionState),
      ∃ fidx' q' st',
        stepN (.file frames) (m * (frames.length + 1))
            ({ pos := 0, frame_idx := fidx, done := false, trace := tr, q := q0 }, st) =
          ({ pos := 0, frame_idx := fidx', done := false,
             trace := tr ++ repList frames m, q := q' }, st') := by
  intro m
  induction m with
  | zero =>
    intro fidx tr q0 st
    exact ⟨fidx, q0, st, by simp [stepN, repList]⟩
  | succ m ih =>
    intro fidx tr q0 st
    have hmul : (m + 1) * (frames.length + 1) =
        m * (frames.length + 1) + (frames.length + 1) := by ring
    rw [hmul, stepN_add]
    obtain ⟨fidx', q', st', heq⟩ := ih fidx tr q0 st
    rw [heq, file_cycle frames hF fidx' (tr ++ repList frames m) q' st']
    exact ⟨fidx' + frames.length, frames.foldl offerQ q',
      { st' with frame_count := fidx' + frames.length },
      by rw [List.append_assoc, repList_succ_back]⟩

lemma repList_getD (frames : List Frame) :
    ∀ m k, k < m * frames.length →
      (repList frames m).getD k 0 = frames.getD (k % frames.length) 0 := by
  intro m
  induction m with
  | zero => intro k hk; simp at hk
  | succ m ih =>
    intro k hk
    by_cases hkF : k < frames.length
    · show (frames ++ repList frames m).getD k 0 = _
      rw [List.getD_append _ _ _ _ hkF, Nat.mod_eq_of_lt hkF]
    · push_neg at hkF
      show (frames ++ repList frames m).getD k 0 = _
      rw [List.getD_append_right _ _ _ _ hkF]
      have hk' : k - frames.length < m * frames.length := by
        have hmul : (m + 1) * frames.length =
            m * frames.length + frames.length := by ring
        rw [hmul] at hk
        generalize m * frames.length = A at hk ⊢
        omega
      rw [ih (k - frames.length) hk', Nat.mod_eq_sub_mod hkF]

lemma nthProduced_eq (frames : List Frame) (hF : frames ≠ []) (k : Nat) :
    nthProduced frames k = frames.getD (k % frames.length) 0 := by
  have hlen : 0 < frames.length := List.length_pos.mpr hF
  obtain ⟨fidx', q', st', heq⟩ :=
    file_cycles_trace frames hF (k + 1) 0 [] none (startWrites [] (initState []))
  have hinit : (flInit, startWrites [] (initState [])) =
      (({ pos := 0, frame_idx := 0, done := false, trace := [], q := none } : FLoopSt),
       startWrites [] (initState [])) := rfl
  unfold nthProduced frun
  rw [hinit, heq]
  have hk : k < (k + 1) * frames.length := by
    calc k < k + 1 := Nat.lt_succ_self k
    _ = (k + 1) * 1 := (Nat.mul_one _).symm
    _ ≤ (k + 1) * frames.length := Nat.mul_le_mul_left _ hlen
  simpa using repList_getD frames (k + 1) k hk

lemma fstep_file_done (frames : List Frame) (x : FLoopSt × DetectionState)
    (h : x.1.done = false) : (fstep (.file frames) x).1.done = false := by
  obtain ⟨fl, st⟩ := x
  simp only at h
  cases hr : capRead (.file frames) fl.pos with
  | none => simp [fstep, h, hr, srcIsFile]
  | some f => simp [fstep, h, hr]

lemma frun_done (frames : List Frame) : ∀ n, (frun frames n).1.done = false := by
  intro n
  induction n with
  | zero => rfl
  | succ n ih =>
    have h : frun frames (n + 1) = fstep (.file frames) (frun frames n) := by
      unfold frun
      rw [stepN_succ_right]
    rw [h]
    exact fstep_file_done frames (frun frames n) ih

/-- C7: on a finite seekable source that signals exhaustion after F frames,
the frame loop never terminates; it rewinds and keeps producing, and the k-th
frame it ever produces (0-indexed, before overlay) is the source frame at
position k mod F, so the sequence after the rewind repeats the sequence from
the start. -/
theorem C7_file_source_loops (frames : List Frame) (hF : frames ≠ []) :
    (∀ n, (frun frames n).1.done = false) ∧
    (∀ k, nthProduced frames k = frames.getD (k % frames.length) 0) ∧
    (∀ k, nthProduced frames (k + frames.length) = nthProduced frames k) := by
  refine ⟨frun_done frames, fun k => nthProduced_eq frames hF k, fun k => ?_⟩
  rw [nthProduced_eq frames hF, nthProduced_eq frames hF, Nat.add_mod_right]

/-- C7 witness: a two-frame file loops: the third produced frame equals the
first, and the loop is still running after five iterations. -/
theorem C7_witness :
    ([3, 4] : List Frame) ≠ [] ∧
    nthProduced [3, 4] 0 = 3 ∧
    nthProduced [3, 4] (0 + 2) = nthProduced [3, 4] 0 ∧
    (frun [3, 4] 5).1.done = false :=
  ⟨by simp,
   (C7_file_source_loops [3, 4] (by simp)).2.1 0,
   (C7_file_source_loops [3, 4] (by simp)).2.2 0,
   (C7_file_source_loops [3, 4] (by simp)).1 5⟩

-- ---------------------------------------------------------------------------
-- C5: response-parsing fallback
-- ---------------------------------------------------------------------------

lemma lstripBy_cons_neg (p : Char → Bool) (c : Char) (t : List Char) (h : p c = false) :
    lstripBy p (c :: t) = c :: t := by
  simp [lstripBy, List.dropWhile_cons, h]

lemma lstripBy_cons_pos (p : Char → Bool) (c : Char) (t : List Char) (h : p c = true) :
    lstripBy p (c :: t) = lstripBy p t := by
  simp [lstripBy, List.dropWhile_cons, h]

lemma rstripBy_concat_neg (p : Char → Bool) (l : List Char) (x : Char) (h : p x = false) :
    rstripBy p (l ++ [x]) = l ++ [x] := by
  simp [rstripBy, List.reverse_append, List.dropWhile_cons, h]

lemma rstripBy_concat_pos (p : Char → Bool) (l : List Char) (x : Char) (h : p x = true) :
    rstripBy p (l ++ [x]) = rstripBy p l := by
  simp [rstripBy, List.reverse_append, List.dropWhile_cons, h]

lemma lstripBy_append_pos (p : Char → Bool) (xs l : List Char)
    (h : ∀ c ∈ xs, p c = true) : lstripBy p (xs ++ l) = lstripBy p l := by
  induction xs with
  | nil => rfl
  | cons a as ih =>
    have ha : p a = true := h a (List.mem_cons_self a as)
    show lstripBy p (a :: (as ++ l)) = _
    rw [lstripBy_cons_pos _ _ _ ha]
    exact ih (fun c hc => h c (List.mem_cons_of_mem a hc))

lemma rstripBy_append_pos (p : Char → Bool) (l ys : List Char)
    (h : ∀ c ∈ ys, p c = true) : rstripBy p (l ++ ys) = rstripBy p l := by
  unfold rstripBy
  rw [List.reverse_append]
  rw [show List.dropWhile p (ys.reverse ++ l.reverse) = List.dropWhile p l.reverse from
    lstripBy_append_pos p ys.reverse l.reverse (fun c hc => h c (List.mem_reverse.mp hc))]

lemma stripBy_keep (p : Char → Bool) (t : List Char) (c : Char)
    (h1 : p lb = false) (h2 : p c = false) :
    stripBy p ((lb :: t) ++ [c]) = (lb :: t) ++ [c] := by
  unfold stripBy
  have e1 : lstripBy p ((lb :: t) ++ [c]) = (lb :: t) ++ [c] :=
    lstripBy_cons_neg p lb (t ++ [c]) h1
  have e2 : rstripBy p ((lb :: t) ++ [c]) = (lb :: t) ++ [c] :=
    rstripBy_concat_neg p (lb :: t) c h2
  rw [e1, e2]

lemma json4_not_prefix_of_lb (t : List Char) :
    json4.isPrefixOf (pyLower (lb :: t)) = false := by
  have h : ('j' == Char.toLower lb) = false := by decide
  simp [json4, pyLower, List.isPrefixOf, h]

/-- Preprocessing keeps a raw string that starts with the opening brace and
ends in a non-whitespace, non-backtick character entirely unchanged. -/
lemma preprocessRaw_id_of (t : List Char) (c : Char)
    (hc1 : pyWsChar c = false) (hc2 : isBacktick c = false) :
    preprocessRaw ((lb :: t) ++ [c]) = (lb :: t) ++ [c] := by
  have hs1 := stripBy_keep pyWsChar t c (by decide) hc1
  have hs2 := stripBy_keep isBacktick t c (by decide) hc2
  have hpre : json4.isPrefixOf (pyLower ((lb :: t) ++ [c])) = false :=
    json4_not_prefix_of_lb (t ++ [c])
  unfold preprocessRaw stripBackticks pyStrip
  simp only [hs1, hs2, hpre]
  simp

lemma isPrefixOf_append_self (l : List Char) : ∀ t, l.isPrefixOf (l ++ t) = true := by
  induction l with
  | nil => intro t; cases t <;> rfl
  | cons a as ih =>
    intro t
    show ((a == a) && as.isPrefixOf (as ++ t)) = true
    simp [ih]

/-- Preprocessing of a fenced payload recovers exactly the payload. -/
lemma preprocessRaw_fence (core : List Char) :
    preprocessRaw (fence ((lb :: core) ++ [rb])) = (lb :: core) ++ [rb] := by
  have hA1 : lstripBy pyWsChar (fence ((lb :: core) ++ [rb])) =
      fence ((lb :: core) ++ [rb]) := by
    have hsh : fence ((lb :: core) ++ [rb]) =
        bt :: ([bt, bt] ++ json4 ++ ['\n'] ++ ((lb :: core) ++ [rb]) ++ ['\n'] ++ [bt, bt, bt]) := by
      simp [fence, List.append_assoc]
    rw [hsh, lstripBy_cons_neg _ _ _ (by decide)]
  have hA2 : rstripBy pyWsChar (fence ((lb :: core) ++ [rb])) =
      fence ((lb :: core) ++ [rb]) := by
    have hsh : fence ((lb :: core) ++ [rb]) =
        ([bt, bt, bt] ++ json4 ++ ['\n'] ++ ((lb :: core) ++ [rb]) ++ ['\n'] ++ [bt, bt]) ++ [bt] := by
      simp [fence, List.append_assoc]
    rw [hsh, rstripBy_concat_neg _ _ _ (by decide)]
  have hA : pyStrip (fence ((lb :: core) ++ [rb])) = fence ((lb :: core) ++ [rb]) := by
    show stripBy pyWsChar _ = _
    unfold stripBy
    rw [hA1, hA2]
  have hB : stripBackticks (fence ((lb :: core) ++ [rb])) =
      json4 ++ ['\n'] ++ ((lb :: core) ++ [rb]) ++ ['\n'] := by
    show stripBy isBacktick _ = _
    unfold stripBy
    have hb1 : lstripBy isBacktick (fence ((lb :: core) ++ [rb])) =
        json4 ++ ['\n'] ++ ((lb :: core) ++ [rb]) ++ ['\n'] ++ [bt, bt, bt] := by
      have hsh : fence ((lb :: core) ++ [rb]) =
          [bt, bt, bt] ++ (json4 ++ ['\n'] ++ ((lb :: core) ++ [rb]) ++ ['\n'] ++ [bt, bt, bt]) := by
        simp [fence, List.append_assoc]
      rw [hsh, lstripBy_append_pos _ _ _ (by decide)]
      have hsh2 : json4 ++ ['\n'] ++ ((lb :: core) ++ [rb]) ++ ['\n'] ++ [bt, bt, bt] =
          'j' :: (['s', 'o', 'n', '\n'] ++ ((lb :: core) ++ [rb]) ++ ['\n'] ++ [bt, bt, bt]) := by
        simp [json4, List.append_assoc]
      rw [hsh2, lstripBy_cons_neg _ _ _ (by decide)]
    rw [hb1]
    have hb2 : json4 ++ ['\n'] ++ ((lb :: core) ++ [rb]) ++ ['\n'] ++ [bt, bt, bt] =
        (json4 ++ ['\n'] ++ ((lb :: core) ++ [rb]) ++ ['\n']) ++ [bt, bt, bt] := by
      simp [List.append_assoc]
    rw [hb2, rstripBy_append_pos _ _ _ (by decide)]
    have hb3 : json4 ++ ['\n'] ++ ((lb :: core) ++ [rb]) ++ ['\n'] =
        (json4 ++ ['\n'] ++ ((lb :: core) ++ [rb])) ++ ['\n'] := by
      simp [List.append_assoc]
    rw [hb3, rstripBy_concat_neg _ _ _ (by decide)]
  have hC : pyStrip (json4 ++ ['\n'] ++ ((lb :: core) ++ [rb]) ++ ['\n']) =
      json4 ++ ['\n'] ++ ((lb :: core) ++ [rb]) := by
    show stripBy pyWsChar _ = _
    unfold stripBy
    have hc1 : lstripBy pyWsChar (json4 ++ ['\n'] ++ ((lb :: core) ++ [rb]) ++ ['\n']) =
        json4 ++ ['\n'] ++ ((lb :: core) ++ [rb]) ++ ['\n'] := by
      have hsh : json4 ++ ['\n'] ++ ((lb :: core) ++ [rb]) ++ ['\n'] =
          'j' :: (['s', 'o', 'n', '\n'] ++ ((lb :: core) ++ [rb]) ++ ['\n']) := by
        simp [json4, List.append_assoc]
      rw [hsh, lstripBy_cons_neg _ _ _ (by decide)]
    rw [hc1]
    have hc2 : json4 ++ ['\n'] ++ ((lb :: core) ++ [rb]) ++ ['\n'] =
        (json4 ++ ['\n'] ++ ((lb :: core) ++ [rb])) ++ ['\n'] := by
      simp [List.append_assoc]
    rw [hc2, rstripBy_concat_pos _ _ _ (by decide)]
    have hc3 : json4 ++ ['\n'] ++ ((lb :: core) ++ [rb]) =
        (json4 ++ ['\n'] ++ (lb :: core)) ++ [rb] := by
      simp [List.append_assoc]
    rw [hc3, rstripBy_concat_neg _ _ _ (by decide)]
  have hD : json4.isPrefixOf (pyLower (json4 ++ ['\n'] ++ ((lb :: core) ++ [rb]))) = true := by
    have h4 : pyLower json4 = json4 := by decide
    have hmap : pyLower (json4 ++ ['\n'] ++ ((lb :: core) ++ [rb])) =
        json4 ++ pyLower (['\n'] ++ ((lb :: core) ++ [rb])) := by
      have hsh : json4 ++ ['\n'] ++ ((lb :: core) ++ [rb]) =
          json4 ++ (['\n'] ++ ((lb :: core) ++ [rb])) := by
        simp [List.append_assoc]
      rw [hsh]
      show List.map Char.toLower _ = _
      rw [List.map_append]
      show pyLower json4 ++ _ = _
      rw [h4]
      rfl
    rw [hmap]
    exact isPrefixOf_append_self json4 _
  have hdrop : (json4 ++ ['\n'] ++ ((lb :: core) ++ [rb])).drop 4 =
      ['\n'] ++ ((lb :: core) ++ [rb]) := by
    have hsh : json4 ++ ['\n'] ++ ((lb :: core) ++ [rb]) =
        json4 ++ (['\n'] ++ ((lb :: core) ++ [rb])) := by
      simp [List.append_assoc]
    rw [hsh]
    exact List.drop_left json4 _
  have hfinal : pyStrip (['\n'] ++ ((lb :: core) ++ [rb])) = (lb :: core) ++ [rb] := by
    show stripBy pyWsChar _ = _
    unfold stripBy
    have hl : lstripBy pyWsChar (['\n'] ++ ((lb :: core) ++ [rb])) =
        lstripBy pyWsChar ((lb :: core) ++ [rb]) :=
      lstripBy_append_pos _ _ _ (by decide)
    have hl2 : lstripBy pyWsChar ((lb :: core) ++ [rb]) = (lb :: core) ++ [rb] :=
      lstripBy_cons_neg pyWsChar lb (core ++ [rb]) (by decide)
    rw [hl, hl2]
    exact rstripBy_concat_neg _ _ _ (by decide)
  unfold preprocessRaw
  rw [hA, hB, hC]
  show (if json4.isPrefixOf (pyLower (json4 ++ ['\n'] ++ ((lb :: core) ++ [rb]))) = true then
      pyStrip (List.drop 4 (json4 ++ ['\n'] ++ ((lb :: core) ++ [rb])))
    else json4 ++ ['\n'] ++ ((lb :: core) ++ [rb])) = (lb :: core) ++ [rb]
  rw [hD, if_pos rfl, hdrop]
  exact hfinal

lemma takeWhile_middle (q : Char → Bool) (xs : List Char) (y : Char) (r : List Char)
    (hall : ∀ a ∈ xs, q a = true) (hy : q y = false) :
    (xs ++ y :: r).takeWhile q = xs := by
  induction xs with
  | nil => simp [List.takeWhile_cons, hy]
  | cons a as ih =>
    have ha : q a = true := hall a (List.mem_cons_self a as)
    show (a :: (as ++ y :: r)).takeWhile q = a :: as
    rw [List.takeWhile_cons, ha]
    simp only [if_true]
    rw [ih (fun c hc => hall c (List.mem_cons_of_mem a hc))]

/-- The regex search finds the object at the very start when its body is
nonempty and brace-free, whatever follows. -/
lemma jsearch_obj (body rest : List Char) (hne : body ≠ [])
    (hfree : ∀ c ∈ body, c ≠ lb ∧ c ≠ rb) :
    jsearch ((lb :: body) ++ [rb] ++ rest) = some ((lb :: body) ++ [rb]) := by
  obtain ⟨b, bs, rfl⟩ := List.exists_cons_of_ne_nil hne
  have hall : ∀ c ∈ b :: bs, (decide (c ≠ lb) && decide (c ≠ rb)) = true := by
    intro c hc
    simp [(hfree c hc).1, (hfree c hc).2]
  have hshape : (lb :: (b :: bs)) ++ [rb] ++ rest = lb :: ((b :: bs) ++ rb :: rest) := by
    simp
  rw [hshape]
  show (match tryMatchAt (lb :: ((b :: bs) ++ rb :: rest)) with
        | some m => some m
        | none => jsearch ((b :: bs) ++ rb :: rest)) = _
  have htm : tryMatchAt (lb :: ((b :: bs) ++ rb :: rest)) =
      some ((lb :: (b :: bs)) ++ [rb]) := by
    simp only [tryMatchAt, if_true]
    have htw : ((b :: bs) ++ rb :: rest).takeWhile (fun x => x ≠ lb && x ≠ rb) = b :: bs := by
      refine takeWhile_middle _ _ _ _ ?_ ?_
      · intro a ha
        exact hall a ha
      · decide
    rw [htw]
    have hdrop : ((b :: bs) ++ rb :: rest).drop (b :: bs).length = rb :: rest :=
      List.drop_left (b :: bs) (rb :: rest)
    rw [hdrop]
    simp
  rw [htm]

/-- C5 (counterexample): the raw response consisting of the valid empty
object followed by trailing prose does NOT parse: the strict parse fails on
the extra data and the fallback pattern requires a nonempty brace body, so
`_parse_vlm_response` raises — the claim that every valid object followed by
trailing prose is extracted is false. -/
theorem C5_counterexample :
    jsonLoads [lb, rb] = some (JVal.jobj []) ∧
    parse_vlm_response ((lb :: rb :: []) ++ tl " is clear") = .error PyExc.jsonDecodeError :=
  ⟨rfl, rfl⟩

/-- C5 (amended): (a) a valid object wrapped in backtick fencing with the
"json" prefix parses to the same result as the unwrapped object; (b) a valid
object whose top level is nonempty and brace-free, followed by trailing prose
that defeats the strict parse, is recovered by the pattern fallback (an empty
or brace-nested object is not — see the counterexample); (c) every failure of
`_parse_vlm_response` raises the decode error, never another exception. -/
theorem C5_parse_fallback_amended :
    (∀ core v, jsonLoads ((lb :: core) ++ [rb]) = some v →
       parse_vlm_response ((lb :: core) ++ [rb]) = .ok v ∧
       parse_vlm_response (fence ((lb :: core) ++ [rb])) = .ok v) ∧
    (∀ body p' c v, body ≠ [] → (∀ x ∈ body, x ≠ lb ∧ x ≠ rb) →
       pyWsChar c = false → c ≠ bt →
       jsonLoads ((lb :: body) ++ [rb] ++ (p' ++ [c])) = none →
       jsonLoads ((lb :: body) ++ [rb]) = some v →
       parse_vlm_response ((lb :: body) ++ [rb] ++ (p' ++ [c])) = .ok v) ∧
    (∀ raw e, parse_vlm_response raw = .error e → e = PyExc.jsonDecodeError) := by
  refine ⟨?_, ?_, ?_⟩
  · intro core v hok
    have hpp : preprocessRaw ((lb :: core) ++ [rb]) = (lb :: core) ++ [rb] :=
      preprocessRaw_id_of core rb (by decide) (by decide)
    constructor
    · simp only [parse_vlm_response, hpp, hok]
    · simp only [parse_vlm_response, preprocessRaw_fence core, hok]
  · intro body p' c v hne hfree hc1 hc2 hfail hok
    have hcb : isBacktick c = false := by
      simp [isBacktick, hc2]
    have hshape : (lb :: body) ++ [rb] ++ (p' ++ [c]) =
        (lb :: (body ++ [rb] ++ p')) ++ [c] := by
      simp
    have hpp : preprocessRaw ((lb :: body) ++ [rb] ++ (p' ++ [c])) =
        (lb :: body) ++ [rb] ++ (p' ++ [c]) := by
      rw [hshape]
      exact preprocessRaw_id_of (body ++ [rb] ++ p') c hc1 hcb
    have hse : jsearch ((lb :: body) ++ [rb] ++ (p' ++ [c])) =
        some ((lb :: body) ++ [rb]) :=
      jsearch_obj body (p' ++ [c]) hne hfree
    simp only [parse_vlm_response, hpp, hfail, hse, hok]
  · intro raw e h
    simp only [parse_vlm_response] at h
    split at h
    · exact absurd h (by simp)
    · split at h
      · split at h
        · exact absurd h (by simp)
        · injection h with h'
          exact h'.symm
      · injection h with h'
        exact h'.symm

/-- C5 witness: the amended theorem at a concrete detected-response object,
with concrete fencing, concrete trailing prose, and a concrete garbage
response. -/
theorem C5_witness :
    parse_vlm_response ((lb :: (qt :: tl "detected" ++ [qt, ':'] ++ tl "true")) ++ [rb]) =
        .ok (JVal.jobj [(tl "detected", JVal.jbool true)]) ∧
    parse_vlm_response (fence ((lb :: (qt :: tl "detected" ++ [qt, ':'] ++ tl "true")) ++ [rb])) =
        .ok (JVal.jobj [(tl "detected", JVal.jbool true)]) ∧
    parse_vlm_response ((lb :: (qt :: tl "detected" ++ [qt, ':'] ++ tl "true")) ++ [rb] ++ (tl " with pros" ++ ['e'])) =
        .ok (JVal.jobj [(tl "detected", JVal.jbool true)]) ∧
    PyExc.jsonDecodeError = PyExc.jsonDecodeError :=
  ⟨(C5_parse_fallback_amended.1 (qt :: tl "detected" ++ [qt, ':'] ++ tl "true")
      (JVal.jobj [(tl "detected", JVal.jbool true)]) rfl).1,
   (C5_parse_fallback_amended.1 (qt :: tl "detected" ++ [qt, ':'] ++ tl "true")
      (JVal.jobj [(tl "detected", JVal.jbool true)]) rfl).2,
   C5_parse_fallback_amended.2.1 (qt :: tl "detected" ++ [qt, ':'] ++ tl "true")
      (tl " with pros") 'e' (JVal.jobj [(tl "detected", JVal.jbool true)])
      (by simp) (by decide) (by decide) (by decide) rfl rfl,
   C5_parse_fallback_amended.2.2 (tl "garbage with no braces") PyExc.jsonDecodeError rfl⟩

end FireDetector
